import Mathlib

/-!
Verification development for the music recommendation system
(`app.py` plus the `recommender` package it imports).

The repository ships the Streamlit application `app.py`; the functions it
imports from `recommender.wrmf`, `recommender.embeddings` and
`recommender.recommend` are part of this repository but their sources are
not included, so they are modelled from the specification (each such
definition carries a doc comment starting `Modelled from the spec:`).
Track identifiers are modelled as natural numbers, real-valued audio
features and latent factors as lists of rationals (the square root used
by cosine similarity is an explicit function parameter, since exact
floating-point square roots are not representable in ℚ).
-/

namespace MusicRec

/-- A track record of a playlist, as in the playlist JSON consumed by
`app.py`: fields `tid`, `artist_name`, `track_name`. -/
structure Track where
  tid : Nat
  artist_name : String
  track_name : String
deriving DecidableEq, Repr

/-- Association-list lookup, modelling Python dict lookup `m[k]` /
`k in m` for the index maps (`tid_to_idx`, `idx_to_tid`, `tid_to_meta`). -/
def alookup {β : Type} : List (Nat × β) → Nat → Option β
  | [], _ => none
  | (k, v) :: l, a => if k = a then some v else alookup l a

/-- Keys of an association list. -/
def akeys {β : Type} (l : List (Nat × β)) : List Nat :=
  l.map Prod.fst

/-- Vector addition (`numpy` elementwise `+` on equal-length vectors). -/
def vadd (u v : List ℚ) : List ℚ :=
  List.zipWith (· + ·) u v

/-- Scalar multiple of a vector (`numpy` scalar `*`). -/
def vscale (c : ℚ) (v : List ℚ) : List ℚ :=
  v.map (fun x => c * x)

/-- Dot product (`numpy.dot` on equal-length vectors). -/
def dot (u v : List ℚ) : ℚ :=
  (List.zipWith (· * ·) u v).sum

/-- Squared Euclidean norm, `‖v‖² = v · v`. -/
def normSq (v : List ℚ) : ℚ :=
  dot v v

/-- Sum of the nonempty vector family `v :: vs` (`numpy` summing of the
seed embedding rows before dividing by their count). -/
def vsum1 (v : List ℚ) (vs : List (List ℚ)) : List ℚ :=
  vs.foldl vadd v

/-- State threaded through `build_interaction_samples` while it iterates
the training playlists. -/
structure BuildState where
  samples : List (Nat × Nat)
  tid_to_idx : List (Nat × Nat)
  idx_to_tid : List (Nat × Nat)
  tid_to_meta : List (Nat × (String × String))
deriving Repr

/-- Modelled from the spec: one step of the Interaction Dataset Builder
(`recommender.wrmf.build_interaction_samples`, source not in the
repository snapshot) — "for each track encountered for the first time,
assign the next unused dense index; record every
(playlist-index, track-index) pair as an observed interaction; the
first-seen (artist, title) for a given identifier is retained as its
metadata (later duplicates are ignored)". -/
def addTrack (pIdx : Nat) (st : BuildState) (t : Track) : BuildState :=
  match alookup st.tid_to_idx t.tid with
  | some i => { st with samples := st.samples ++ [(pIdx, i)] }
  | none =>
      let i := st.tid_to_idx.length
      { samples := st.samples ++ [(pIdx, i)]
        tid_to_idx := st.tid_to_idx ++ [(t.tid, i)]
        idx_to_tid := st.idx_to_tid ++ [(i, t.tid)]
        tid_to_meta := st.tid_to_meta ++ [(t.tid, (t.artist_name, t.track_name))] }

/-- Fold `addTrack` over one playlist. -/
def addPlaylist (st : BuildState) (p : Nat × List Track) : BuildState :=
  p.2.foldl (addTrack p.1) st

/-- Modelled from the spec: `build_interaction_samples(training_playlists)
-> (samples, tid_to_idx, idx_to_tid, tid_to_meta)` — "iterate all
playlists; for each track encountered for the first time, assign the next
unused dense index". The training collection is a list of playlists,
each an ordered list of track records; playlist indices are the
iteration positions. -/
def build_interaction_samples (train : List (List Track)) : BuildState :=
  train.enum.foldl addPlaylist ⟨[], [], [], []⟩

/-- All track identifiers occurring in a training collection. -/
def trainTids (train : List (List Track)) : List Nat :=
  train.flatMap (fun p => p.map Track.tid)

/-- Modelled from the spec: the `recommender.wrmf.WRMF` latent-factor
model (source not in the repository snapshot). Only the track-factor
matrix matters for scoring; `trained` records whether the factors were
ever trained or loaded (the spec's "model ready" vs random-initial
state). -/
structure WRMF where
  num_users : Nat
  num_items : Nat
  num_factors : Nat
  item_factors : List (List ℚ)
  trained : Bool

/-- From `src/app.py` lines 50-54: `load_model` constructs
`WRMF(num_users, num_items, num_factors)` and returns it; the body holds
only the comment "In a real app, load model weights here", so no weights
are ever loaded and the factors keep the random values drawn at
construction. `init` stands for that random initial factor matrix, and
`trained := false` records that no training or loading happened. -/
def load_model (init : List (List ℚ)) (num_users num_items num_factors : Nat) : WRMF :=
  ⟨num_users, num_items, num_factors, init, false⟩

/-- Modelled from the spec: the ranking order shared by both generators —
"ranked descending by predicted affinity; ties broken by ascending
track-index" (CF) and "sort descending by similarity … stable tie-break
by original row order" (audio). `rankR score i j` holds when candidate
index `i` is ranked no later than candidate index `j`. -/
def rankR (score : Nat → ℚ) (i j : Nat) : Prop :=
  score j < score i ∨ (score i = score j ∧ i ≤ j)

instance (score : Nat → ℚ) : DecidableRel (rankR score) := fun i j => by
  unfold rankR
  infer_instance

/-- Rank candidate indices: descending by score, ties by ascending index.
On candidate lists without duplicate indices `rankR score` is a linear
order, so the sorted result is the same for every sorting algorithm. -/
def rank_indices (score : Nat → ℚ) (cands : List Nat) : List Nat :=
  cands.insertionSort (rankR score)

/-- Modelled from the spec: `recommender.recommend.generate_recommendations
(model, seed_tids, track_factor_matrix, idx_to_tid, tid_to_idx, k)`
(source not in the repository snapshot) — "(1) filter seed identifiers to
those present in `tid_to_idx`; (2) compute a query vector via fold-in
(the average of the seed tracks' factor rows); (3) compute affinity score
for every indexed track (inner product with the query vector);
(4) exclude seed-track indices from candidates; (5) select the top K by
score". An empty filtered seed set is the `NotEnoughSeedData` failure,
returned as `none`. `item_factors` is the track-factor matrix the caller
passes (in `app.py` it is `model.item_factors`). -/
def generate_recommendations (item_factors : List (List ℚ)) (seed : List Nat)
    (idx_to_tid tid_to_idx : List (Nat × Nat)) (k : Nat) :
    Option (List ℚ × List Nat) :=
  let seedIdxs := seed.filterMap (alookup tid_to_idx)
  match seedIdxs.filterMap (fun i => item_factors.get? i) with
  | [] => none
  | v :: vs =>
      let q := vscale (1 / (vs.length + 1 : ℚ)) (vsum1 v vs)
      let score : Nat → ℚ := fun i => dot q (item_factors.getD i [])
      let cands := (List.range tid_to_idx.length).filter
        (fun i => !(seedIdxs.contains i))
      some (q, (rank_indices score cands).take k |>.filterMap (alookup idx_to_tid))

/-- Index of a track identifier in the parallel identifier sequence of
the embedding store. -/
def idxOf? : List Nat → Nat → Option Nat
  | [], _ => none
  | a :: l, t => if a = t then some 0 else (idxOf? l t).map (· + 1)

/-- The embedding row stored for a track identifier, when the store has
one (the store is the matrix `M` with its parallel identifier list
`tids`, as produced by `get_embeddings`). -/
def embOf (M : List (List ℚ)) (tids : List Nat) (t : Nat) : Option (List ℚ) :=
  match idxOf? tids t with
  | some i => M.get? i
  | none => none

/-- Modelled from the spec:
`recommender.embeddings.get_average_audio_embedding(seed_tids,
embedding_source)` (source not in the repository snapshot) — "(1) restrict
seed identifiers to those with a known embedding; if none remain, fail
with an explicit 'no usable seed embeddings' condition; (2) compute the
arithmetic mean of the seed embedding vectors (equal weighting; seeds are
first deduplicated)". The embedding source is the store `(M, tids)`;
the explicit failure is returned as `none`. -/
def get_average_audio_embedding (seed : List Nat) (M : List (List ℚ))
    (tids : List Nat) : Option (List ℚ) :=
  match seed.dedup.filterMap (embOf M tids) with
  | [] => none
  | v :: vs => some (vscale (1 / (vs.length + 1 : ℚ)) (vsum1 v vs))

/-- Modelled from the spec: cosine similarity with the numeric contract
"cosine similarity is undefined for a zero-norm vector; such rows must be
treated as similarity 0". `sqrt` is the square-root function of the
floating-point library, kept abstract over ℚ. -/
def cosineSim (sqrt : ℚ → ℚ) (q v : List ℚ) : ℚ :=
  if normSq q = 0 ∨ normSq v = 0 then 0
  else dot q v / (sqrt (normSq q) * sqrt (normSq v))

/-- Modelled from the spec: `recommender.recommend.get_similarity
(seed_tids, query_vector, embedding_matrix, tids)` (source not in the
repository snapshot) — "(3) compute cosine similarity between the mean
vector and every row of the embedding matrix; (4) sort descending by
similarity, excluding seed identifiers; stable tie-break by original row
order". Returns the per-row scores and the ranked non-seed track
identifiers; callers take the first K. -/
def get_similarity (sqrt : ℚ → ℚ) (seed : List Nat) (q : List ℚ)
    (M : List (List ℚ)) (tids : List Nat) : List ℚ × List Nat :=
  let score : Nat → ℚ := fun i => cosineSim sqrt q (M.getD i [])
  let cands := (List.range tids.length).filter
    (fun i => !(seed.contains (tids.getD i 0)))
  (M.map (cosineSim sqrt q), (rank_indices score cands).map (fun i => tids.getD i 0))

/-- From `src/app.py` line 68:
`playlist_tids = [track['tid'] for track in playlist if track['tid'] in tid_to_idx]`. -/
def app_playlist_tids (playlist : List Track) (tid_to_idx : List (Nat × Nat)) : List Nat :=
  (playlist.map Track.tid).filter (fun t => (alookup tid_to_idx t).isSome)

/-- From `src/app.py` lines 63 and 97-122: the Collaborative Filtering
tab handler. It builds the index maps from the training playlists, loads
the (untrained) model with `num_users = len(train_playlists)` and
`num_items = len(tid_to_idx)`, filters the selected playlist's tracks to
those in `tid_to_idx`, and calls `generate_recommendations` with K = 10;
`init` is the model's random initial factor matrix. -/
def cfTab (init : List (List ℚ)) (train : List (List Track))
    (playlist : List Track) (k : Nat) : Option (List Nat) :=
  let b := build_interaction_samples train
  let model := load_model init train.length b.tid_to_idx.length 32
  let seeds := app_playlist_tids playlist b.tid_to_idx
  (generate_recommendations model.item_factors seeds b.idx_to_tid b.tid_to_idx k).map
    Prod.snd

/-- From `src/app.py` lines 124-152: the Audio Similarity tab handler.
It passes the same CF-filtered `playlist_tids` list to
`get_average_audio_embedding` and `get_similarity`, and shows the first
10 ranked tracks; the surrounding `try/except` turns the engine's
"no usable seed embeddings" failure into an error message
(`Except.error`) instead of a ranking. -/
def audioTab (sqrt : ℚ → ℚ) (train : List (List Track)) (playlist : List Track)
    (M : List (List ℚ)) (tids : List Nat) (k : Nat) : Except String (List Nat) :=
  let b := build_interaction_samples train
  let seeds := app_playlist_tids playlist b.tid_to_idx
  match get_average_audio_embedding seeds M tids with
  | none => Except.error "no usable seed embeddings"
  | some q => Except.ok ((get_similarity sqrt seeds q M tids).2.take k)

/-! ### Association-list lemmas -/

theorem akeys_cons {β : Type} (k : Nat) (v : β) (l : List (Nat × β)) :
    akeys ((k, v) :: l) = k :: akeys l := rfl

theorem mem_akeys_of_mem {β : Type} {l : List (Nat × β)} {t : Nat} {v : β}
    (h : (t, v) ∈ l) : t ∈ akeys l :=
  List.mem_map_of_mem Prod.fst h

theorem alookup_isSome_iff {β : Type} (l : List (Nat × β)) (t : Nat) :
    (alookup l t).isSome ↔ t ∈ akeys l := by
  induction l with
  | nil => simp [alookup, akeys]
  | cons p l ih =>
    obtain ⟨k, v⟩ := p
    rw [akeys_cons, List.mem_cons]
    by_cases h : k = t
    · subst h
      simp [alookup]
    · simp only [alookup, if_neg h]
      rw [ih]
      constructor
      · exact Or.inr
      · rintro (rfl | hm)
        · exact absurd rfl h
        · exact hm

theorem alookup_eq_none_iff {β : Type} (l : List (Nat × β)) (t : Nat) :
    alookup l t = none ↔ t ∉ akeys l := by
  rw [← Option.not_isSome_iff_eq_none, not_iff_not, alookup_isSome_iff]

theorem mem_of_alookup_eq_some {β : Type} {l : List (Nat × β)} {t : Nat} {v : β}
    (h : alookup l t = some v) : (t, v) ∈ l := by
  induction l with
  | nil => simp [alookup] at h
  | cons p l ih =>
    obtain ⟨k, w⟩ := p
    by_cases hk : k = t
    · subst hk
      simp [alookup] at h
      simp [h]
    · simp [alookup, hk] at h
      exact List.mem_cons_of_mem _ (ih h)

theorem alookup_eq_some_of_mem {β : Type} {l : List (Nat × β)} {t : Nat} {v : β}
    (hnd : (akeys l).Nodup) (h : (t, v) ∈ l) : alookup l t = some v := by
  induction l with
  | nil => simp at h
  | cons p l ih =>
    obtain ⟨k, w⟩ := p
    rw [akeys_cons, List.nodup_cons] at hnd
    rcases List.mem_cons.mp h with h1 | h1
    · obtain ⟨hk, hv⟩ : t = k ∧ v = w := by
        constructor <;> [exact congrArg Prod.fst h1; exact congrArg Prod.snd h1]
      subst hk
      subst hv
      simp [alookup]
    · have hk : k ≠ t := by
        rintro rfl
        exact hnd.1 (mem_akeys_of_mem h1)
      simp only [alookup, if_neg hk]
      exact ih hnd.2 h1

theorem alookup_inj_of_keys_nodup {β : Type} {l : List (Nat × β)} {i j : Nat} {v : β}
    (hnd : (akeys l).Nodup) (hi : (i, v) ∈ l) (hj : (j, v) ∈ l) :
    (alookup l i = some v ∧ alookup l j = some v) :=
  ⟨alookup_eq_some_of_mem hnd hi, alookup_eq_some_of_mem hnd hj⟩

theorem akeys_append {β : Type} (l₁ l₂ : List (Nat × β)) :
    akeys (l₁ ++ l₂) = akeys l₁ ++ akeys l₂ := by
  simp [akeys]

/-! ### Invariants of `build_interaction_samples` -/

/-- The structural invariant the Dataset Builder maintains: track indices
are assigned consecutively in first-seen order, `idx_to_tid` is the
entry-wise swap of `tid_to_idx`, and track identifiers are never indexed
twice. -/
structure BuildInv (st : BuildState) : Prop where
  snd_range : st.tid_to_idx.map Prod.snd = List.range st.tid_to_idx.length
  swap : st.idx_to_tid = st.tid_to_idx.map (fun p => (p.2, p.1))
  keys_nodup : (akeys st.tid_to_idx).Nodup

theorem buildInv_init : BuildInv ⟨[], [], [], []⟩ := by
  constructor <;> simp [akeys]

theorem buildInv_addTrack {st : BuildState} (h : BuildInv st) (p : Nat) (t : Track) :
    BuildInv (addTrack p st t) := by
  unfold addTrack
  cases hl : alookup st.tid_to_idx t.tid with
  | some i => exact ⟨h.snd_range, h.swap, h.keys_nodup⟩
  | none =>
    have hmem : t.tid ∉ akeys st.tid_to_idx := (alookup_eq_none_iff _ _).mp hl
    refine ⟨?_, ?_, ?_⟩
    · simp only [List.map_append, h.snd_range, List.length_append, List.map_cons,
        List.map_nil, List.length_cons, List.length_nil]
      rw [List.range_succ]
    · simp [h.swap]
    · rw [akeys_append, List.nodup_append]
      refine ⟨h.keys_nodup, by simp [akeys], ?_⟩
      intro a ha hb
      simp [akeys] at hb
      exact hmem (hb ▸ ha)

theorem buildInv_addPlaylist {st : BuildState} (h : BuildInv st) (p : Nat × List Track) :
    BuildInv (addPlaylist st p) := by
  obtain ⟨i, tracks⟩ := p
  unfold addPlaylist
  induction tracks generalizing st with
  | nil => exact h
  | cons t ts ih => exact ih (buildInv_addTrack h i t)

theorem buildInv_build (train : List (List Track)) :
    BuildInv (build_interaction_samples train) := by
  unfold build_interaction_samples
  generalize List.enum train = l
  induction l using List.reverseRecOn with
  | nil => exact buildInv_init
  | append_singleton l p ih => rw [List.foldl_append]; exact buildInv_addPlaylist ih p

theorem mem_akeys_addTrack (p : Nat) (st : BuildState) (tr : Track) (a : Nat) :
    a ∈ akeys (addTrack p st tr).tid_to_idx ↔
      a ∈ akeys st.tid_to_idx ∨ a = tr.tid := by
  unfold addTrack
  cases hl : alookup st.tid_to_idx tr.tid with
  | some i =>
    have hmem : tr.tid ∈ akeys st.tid_to_idx := by
      rw [← alookup_isSome_iff, hl]
      rfl
    simp only []
    constructor
    · exact Or.inl
    · rintro (hm | rfl)
      · exact hm
      · exact hmem
  | none =>
    simp only [akeys_append]
    rw [List.mem_append]
    simp [akeys]

theorem mem_akeys_addPlaylist (st : BuildState) (i : Nat) (ts : List Track) (a : Nat) :
    a ∈ akeys (addPlaylist st (i, ts)).tid_to_idx ↔
      a ∈ akeys st.tid_to_idx ∨ a ∈ ts.map Track.tid := by
  unfold addPlaylist
  induction ts generalizing st with
  | nil => simp
  | cons t ts ih =>
    rw [List.foldl_cons, ih, mem_akeys_addTrack]
    simp only [List.map_cons, List.mem_cons]
    tauto

theorem mem_akeys_foldl (l : List (Nat × List Track)) (st : BuildState) (a : Nat) :
    a ∈ akeys (l.foldl addPlaylist st).tid_to_idx ↔
      a ∈ akeys st.tid_to_idx ∨ ∃ p ∈ l, a ∈ p.2.map Track.tid := by
  induction l generalizing st with
  | nil => simp
  | cons p l ih =>
    obtain ⟨i, ts⟩ := p
    rw [List.foldl_cons, ih, mem_akeys_addPlaylist]
    simp only [List.mem_cons]
    constructor
    · rintro ((hm | hm) | ⟨q, hq, hm⟩)
      · exact Or.inl hm
      · exact Or.inr ⟨(i, ts), Or.inl rfl, hm⟩
      · exact Or.inr ⟨q, Or.inr hq, hm⟩
    · rintro (hm | ⟨q, (rfl | hq), hm⟩)
      · exact Or.inl (Or.inl hm)
      · exact Or.inl (Or.inr hm)
      · exact Or.inr ⟨q, hq, hm⟩

theorem mem_akeys_build (train : List (List Track)) (a : Nat) :
    a ∈ akeys (build_interaction_samples train).tid_to_idx ↔ a ∈ trainTids train := by
  unfold build_interaction_samples
  rw [mem_akeys_foldl]
  simp only [akeys, List.map_nil, List.not_mem_nil, false_or, trainTids,
    List.mem_flatMap]
  constructor
  · rintro ⟨p, hp, hm⟩
    refine ⟨p.2, ?_, by simpa using hm⟩
    have : p.2 ∈ train.enum.map Prod.snd := List.mem_map_of_mem Prod.snd hp
    simpa [List.enum_map_snd] using this
  · rintro ⟨q, hq, hm⟩
    obtain ⟨i, hi⟩ := List.mem_iff_get.mp hq
    refine ⟨(i, q), ?_, by simpa using hm⟩
    rw [List.mem_iff_get]
    refine ⟨⟨i, by simp⟩, ?_⟩
    have hq' : train[(i : Nat)] = q := by simpa using hi
    simp [List.getElem_enum, hq']

theorem akeys_idx_to_tid (train : List (List Track)) :
    akeys (build_interaction_samples train).idx_to_tid =
      List.range (build_interaction_samples train).tid_to_idx.length := by
  have h := buildInv_build train
  rw [akeys, h.swap, List.map_map, ← h.snd_range]
  rfl

theorem build_roundtrip {train : List (List Track)} {tid i : Nat}
    (h : alookup (build_interaction_samples train).tid_to_idx tid = some i) :
    alookup (build_interaction_samples train).idx_to_tid i = some tid := by
  have inv := buildInv_build train
  have hmem := mem_of_alookup_eq_some h
  have hswap : (i, tid) ∈ (build_interaction_samples train).idx_to_tid := by
    rw [inv.swap]
    exact List.mem_map_of_mem _ hmem
  have hnd : (akeys (build_interaction_samples train).idx_to_tid).Nodup := by
    rw [akeys_idx_to_tid]
    exact List.nodup_range _
  exact alookup_eq_some_of_mem hnd hswap

theorem build_roundtrip_rev {train : List (List Track)} {tid i : Nat}
    (h : alookup (build_interaction_samples train).idx_to_tid i = some tid) :
    alookup (build_interaction_samples train).tid_to_idx tid = some i := by
  have inv := buildInv_build train
  have hmem := mem_of_alookup_eq_some h
  rw [inv.swap] at hmem
  obtain ⟨p, hp, hpe⟩ := List.mem_map.mp hmem
  obtain ⟨hp1, hp2⟩ : p.2 = i ∧ p.1 = tid :=
    ⟨congrArg Prod.fst hpe, congrArg Prod.snd hpe⟩
  have : (tid, i) ∈ (build_interaction_samples train).tid_to_idx := by
    rw [← hp1, ← hp2]
    exact hp
  exact alookup_eq_some_of_mem inv.keys_nodup this

/-! ### Concrete example data used by witnesses -/

/-- Spec §8 scenario: training playlists `{P1:[A,B], P2:[B,C]}`. -/
def exA : Track := ⟨1, "artistA", "songA"⟩

def exB : Track := ⟨2, "artistB", "songB"⟩

def exC : Track := ⟨3, "artistC", "songC"⟩

def exTrain : List (List Track) := [[exA, exB], [exB, exC]]

/-- A small factor matrix for three indexed tracks (dimension 2). -/
def exFactors : List (List ℚ) := [[1, 0], [0, 1], [1, 1]]

/-- Spec §8 scenario embedding store: `X = [1,0]`, `Y = [0,1]`,
`Z = [1,0]` with identifiers 5, 6, 7. -/
def exM : List (List ℚ) := [[1, 0], [0, 1], [1, 0]]

def exTids : List Nat := [5, 6, 7]

/-! ### Claim theorems -/

/-- C1: For every training playlist collection, the index maps returned
by `build_interaction_samples` are mutually inverse: every track
identifier `tid` present in the training collection has an index
`i = tid_to_idx[tid]` with `idx_to_tid[i] = tid`; the keys of
`tid_to_idx` are exactly the distinct track identifiers of the training
collection (no key occurs twice), and the assigned indices are exactly
`0 … n-1`, so track indices are in bijection with the distinct track
identifiers. -/
theorem C1_index_maps_are_bijections (train : List (List Track)) (tid : Nat)
    (h : tid ∈ trainTids train) :
    (∃ i, alookup (build_interaction_samples train).tid_to_idx tid = some i ∧
        alookup (build_interaction_samples train).idx_to_tid i = some tid) ∧
    (akeys (build_interaction_samples train).tid_to_idx).Nodup ∧
    (∀ a, a ∈ akeys (build_interaction_samples train).tid_to_idx ↔ a ∈ trainTids train) ∧
    (build_interaction_samples train).tid_to_idx.map Prod.snd =
      List.range (build_interaction_samples train).tid_to_idx.length := by
  have inv := buildInv_build train
  refine ⟨?_, inv.keys_nodup, fun a => mem_akeys_build train a, inv.snd_range⟩
  have hmem : tid ∈ akeys (build_interaction_samples train).tid_to_idx :=
    (mem_akeys_build train tid).mpr h
  have hsome := (alookup_isSome_iff _ tid).mpr hmem
  obtain ⟨i, hi⟩ := Option.isSome_iff_exists.mp hsome
  exact ⟨i, hi, build_roundtrip hi⟩

/-- Witness for C1 at the spec §8 scenario, with `tid = 2` (track B). -/
theorem C1_witness :
    (2 ∈ trainTids exTrain) ∧
    ((∃ i, alookup (build_interaction_samples exTrain).tid_to_idx 2 = some i ∧
        alookup (build_interaction_samples exTrain).idx_to_tid i = some 2) ∧
    (akeys (build_interaction_samples exTrain).tid_to_idx).Nodup ∧
    (∀ a, a ∈ akeys (build_interaction_samples exTrain).tid_to_idx ↔
        a ∈ trainTids exTrain) ∧
    (build_interaction_samples exTrain).tid_to_idx.map Prod.snd =
      List.range (build_interaction_samples exTrain).tid_to_idx.length) :=
  ⟨by decide, C1_index_maps_are_bijections exTrain 2 (by decide)⟩

/-- Scaling by 1 is the identity. -/
theorem vscale_one (v : List ℚ) : vscale 1 v = v := by
  simp [vscale]

/-- Composition of scalings. -/
theorem vscale_vscale (a b : ℚ) (v : List ℚ) :
    vscale a (vscale b v) = vscale (a * b) v := by
  simp [vscale, Function.comp, mul_assoc]

/-- C3: if, after filtering, the seed set has zero tracks with known
embeddings, the Audio Similarity Engine fails with the explicit
"no usable seed embeddings" condition (`none` from
`get_average_audio_embedding`), and the tab handler surfaces it as a
handled error rather than a ranking. -/
theorem C3_empty_usable_seed_set_fails_explicitly (sqrt : ℚ → ℚ)
    (train : List (List Track)) (playlist : List Track)
    (M : List (List ℚ)) (tids : List Nat) (k : Nat)
    (h : ∀ t ∈ app_playlist_tids playlist (build_interaction_samples train).tid_to_idx,
      embOf M tids t = none) :
    get_average_audio_embedding
      (app_playlist_tids playlist (build_interaction_samples train).tid_to_idx)
      M tids = none ∧
    audioTab sqrt train playlist M tids k =
      Except.error "no usable seed embeddings" := by
  have hnil : (app_playlist_tids playlist
      (build_interaction_samples train).tid_to_idx).dedup.filterMap (embOf M tids)
      = [] :=
    List.filterMap_eq_nil_iff.mpr (fun a ha => h a (List.mem_dedup.mp ha))
  have havg : get_average_audio_embedding
      (app_playlist_tids playlist (build_interaction_samples train).tid_to_idx)
      M tids = none := by
    unfold get_average_audio_embedding
    rw [hnil]
  refine ⟨havg, ?_⟩
  simp only [audioTab, havg]

/-- Witness for C3: playlist `[A]` (tid 1, present in the CF index built
from the spec scenario, absent from the embedding store `{5,6,7}`). -/
theorem C3_witness :
    (∀ t ∈ app_playlist_tids [exA]
        (build_interaction_samples exTrain).tid_to_idx, embOf exM exTids t = none) ∧
    (get_average_audio_embedding
      (app_playlist_tids [exA] (build_interaction_samples exTrain).tid_to_idx)
      exM exTids = none ∧
    audioTab (fun _ => 1) exTrain [exA] exM exTids 10 =
      Except.error "no usable seed embeddings") :=
  ⟨by decide, C3_empty_usable_seed_set_fails_explicitly (fun _ => 1) exTrain [exA]
    exM exTids 10 (by decide)⟩

/-- C5: in the similarity computation a zero-norm vector — a zero-norm
query or a zero-norm embedding row — is assigned similarity 0 (there is
no NaN in the exact model; the guard returns the constant 0). -/
theorem C5_zero_norm_vector_scores_zero (sqrt : ℚ → ℚ) (seed : List Nat)
    (q : List ℚ) (M : List (List ℚ)) (tids : List Nat) (i : Nat)
    (hi : i < M.length)
    (h : normSq q = 0 ∨ normSq (M.getD i []) = 0) :
    (get_similarity sqrt seed q M tids).1[i]? = some 0 := by
  unfold get_similarity
  simp only [List.getElem?_map, List.getElem?_eq_getElem hi, Option.map_some']
  have hrow : M.getD i [] = M[i] := List.getD_eq_getElem M [] hi
  rw [hrow] at h
  unfold cosineSim
  rw [if_pos h]

/-- Witness for C5: zero query vector against the spec scenario store,
row 0. -/
theorem C5_witness :
    (0 < exM.length ∧ (normSq [0, 0] = 0 ∨ normSq (exM.getD 0 []) = 0)) ∧
    (get_similarity (fun _ => 1) [5] [0, 0] exM exTids).1[0]? = some 0 :=
  ⟨⟨by decide, Or.inl (by norm_num [normSq, dot])⟩,
    C5_zero_norm_vector_scores_zero (fun _ => 1) [5] [0, 0] exM exTids 0
      (by decide) (Or.inl (by norm_num [normSq, dot]))⟩

/-- C4: a seed track identifier absent from `tid_to_idx` is silently
excluded and never fatal: prepending an unknown identifier to any seed
set leaves the result of `generate_recommendations` unchanged, and a
seed set of exactly one known and one unknown identifier succeeds with a
query vector equal to the known track's factor row alone. -/
theorem C4_unknown_tid_excluded_not_fatal (item_factors : List (List ℚ))
    (idx_to_tid tid_to_idx : List (Nat × Nat)) (seed : List Nat)
    (a b i : Nat) (v : List ℚ) (k : Nat)
    (hb : alookup tid_to_idx b = none)
    (ha : alookup tid_to_idx a = some i)
    (hv : item_factors.get? i = some v) :
    generate_recommendations item_factors (b :: seed) idx_to_tid tid_to_idx k =
      generate_recommendations item_factors seed idx_to_tid tid_to_idx k ∧
    ((generate_recommendations item_factors [a, b] idx_to_tid tid_to_idx k).map
        Prod.fst = some v ∧
      (generate_recommendations item_factors [a, b] idx_to_tid tid_to_idx k).isSome) := by
  have hseed : ([a, b] : List Nat).filterMap (alookup tid_to_idx) = [i] := by
    rw [List.filterMap_cons_some ha, List.filterMap_cons_none hb,
      List.filterMap_nil]
  have hrows : ([i] : List Nat).filterMap (fun j => item_factors.get? j) = [v] := by
    rw [List.filterMap_cons_some hv, List.filterMap_nil]
  refine ⟨?_, ?_, ?_⟩
  · unfold generate_recommendations
    rw [List.filterMap_cons_none hb]
  · unfold generate_recommendations
    simp only [hseed, hrows]
    norm_num [vsum1, vscale_one]
  · unfold generate_recommendations
    simp only [hseed, hrows]
    rfl

/-- Witness for C4: factors of the spec scenario, known tid 2 (index 1,
row `[0,1]`), unknown tid 9. -/
theorem C4_witness :
    (alookup (build_interaction_samples exTrain).tid_to_idx 9 = none ∧
      alookup (build_interaction_samples exTrain).tid_to_idx 2 = some 1 ∧
      exFactors.get? 1 = some [0, 1]) ∧
    (generate_recommendations exFactors (9 :: [2])
        (build_interaction_samples exTrain).idx_to_tid
        (build_interaction_samples exTrain).tid_to_idx 10 =
      generate_recommendations exFactors [2]
        (build_interaction_samples exTrain).idx_to_tid
        (build_interaction_samples exTrain).tid_to_idx 10 ∧
    ((generate_recommendations exFactors [2, 9]
        (build_interaction_samples exTrain).idx_to_tid
        (build_interaction_samples exTrain).tid_to_idx 10).map Prod.fst =
      some [0, 1] ∧
    (generate_recommendations exFactors [2, 9]
        (build_interaction_samples exTrain).idx_to_tid
        (build_interaction_samples exTrain).tid_to_idx 10).isSome)) :=
  ⟨⟨by decide, by decide, by decide⟩,
    C4_unknown_tid_excluded_not_fatal exFactors
      (build_interaction_samples exTrain).idx_to_tid
      (build_interaction_samples exTrain).tid_to_idx [2] 2 9 1 [0, 1] 10
      (by decide) (by decide) (by decide)⟩

/-- The audio query computation fails (returns `none`) exactly when no
seed track has a stored embedding. -/
theorem get_avg_eq_none_iff (seed : List Nat) (M : List (List ℚ)) (tids : List Nat) :
    get_average_audio_embedding seed M tids = none ↔
      ∀ s ∈ seed, embOf M tids s = none := by
  unfold get_average_audio_embedding
  cases h : seed.dedup.filterMap (embOf M tids) with
  | nil =>
    simp only [true_iff]
    intro s hs
    exact (List.filterMap_eq_nil_iff.mp h) s (List.mem_dedup.mpr hs)
  | cons v vs =>
    refine ⟨fun hsome => absurd hsome (Option.some_ne_none _), fun hall => ?_⟩
    obtain ⟨a, ha, hfa⟩ := List.mem_filterMap.mp (h ▸ List.mem_cons_self v vs)
    rw [hall a (List.mem_dedup.mp ha)] at hfa
    exact Option.noConfusion hfa

theorem get_avg_ne_none_iff (seed : List Nat) (M : List (List ℚ)) (tids : List Nat) :
    get_average_audio_embedding seed M tids ≠ none ↔
      ∃ s ∈ seed, (embOf M tids s).isSome := by
  rw [Ne, get_avg_eq_none_iff]
  push_neg
  simp only [← Option.ne_none_iff_isSome]

/-- C10: the application builds one seed list — the playlist's track
identifiers that are in the CF index map `tid_to_idx`, in playlist
order — and both recommendation paths consume it. Membership depends
only on `tid_to_idx` (an embedding without a CF index does not put a
track into the audio seeds; a CF index without an embedding does not
remove it), and the audio path fails its usable-seed check exactly when
no member of this CF-filtered list has an embedding. The two tab
handlers `cfTab` and `audioTab` both pass `app_playlist_tids` by
construction. -/
theorem C10_single_cf_filtered_seed_list (train : List (List Track))
    (playlist : List Track) (t : Nat) (sqrt : ℚ → ℚ) (M : List (List ℚ))
    (tids : List Nat) (k : Nat) :
    (t ∈ app_playlist_tids playlist (build_interaction_samples train).tid_to_idx ↔
      t ∈ playlist.map Track.tid ∧
        (alookup (build_interaction_samples train).tid_to_idx t).isSome) ∧
    (app_playlist_tids playlist
      (build_interaction_samples train).tid_to_idx).Sublist (playlist.map Track.tid) ∧
    (audioTab sqrt train playlist M tids k ≠
        Except.error "no usable seed embeddings" ↔
      ∃ s ∈ app_playlist_tids playlist (build_interaction_samples train).tid_to_idx,
        (embOf M tids s).isSome) := by
  refine ⟨?_, List.filter_sublist _, ?_⟩
  · simp [app_playlist_tids, List.mem_filter]
  · simp only [audioTab]
    rw [← get_avg_ne_none_iff]
    cases hg : get_average_audio_embedding
        (app_playlist_tids playlist (build_interaction_samples train).tid_to_idx)
        M tids with
    | none => simp
    | some q => simp

/-- C8: the audio query vector is the equally weighted arithmetic mean
of the embeddings of the deduplicated usable seed tracks. Prepending a
track identifier already present in the seed set leaves the query
unchanged (a duplicate contributes exactly once), and when the usable
deduplicated embeddings are `v :: vs` the query is
`(1/n) · (v + … )` with `n = vs.length + 1`; multiplying it back by `n`
returns the plain sum, so every usable seed is weighted equally. -/
theorem C8_query_is_mean_of_dedup_usable_seeds (seed : List Nat) (t : Nat)
    (M : List (List ℚ)) (tids : List Nat) (v : List ℚ) (vs : List (List ℚ))
    (ht : t ∈ seed)
    (h : seed.dedup.filterMap (embOf M tids) = v :: vs) :
    get_average_audio_embedding (t :: seed) M tids =
      get_average_audio_embedding seed M tids ∧
    get_average_audio_embedding seed M tids =
      some (vscale (1 / ((vs.length : ℚ) + 1)) (vsum1 v vs)) ∧
    vscale ((vs.length : ℚ) + 1)
        (vscale (1 / ((vs.length : ℚ) + 1)) (vsum1 v vs)) = vsum1 v vs := by
  refine ⟨?_, ?_, ?_⟩
  · unfold get_average_audio_embedding
    rw [List.dedup_cons_of_mem ht]
  · unfold get_average_audio_embedding
    rw [h]
  · rw [vscale_vscale]
    have hn : ((vs.length : ℚ) + 1) ≠ 0 := by positivity
    rw [mul_one_div, div_self hn, vscale_one]

/-- Witness for C8: seed `[5]` with duplicate 5 prepended, in the spec
scenario store (track 5 has embedding `[1,0]`). -/
theorem C8_witness :
    (5 ∈ [5] ∧ ([5] : List Nat).dedup.filterMap (embOf exM exTids) = [[1, 0]]) ∧
    (get_average_audio_embedding (5 :: [5]) exM exTids =
      get_average_audio_embedding [5] exM exTids ∧
    get_average_audio_embedding [5] exM exTids =
      some (vscale (1 / ((List.length ([] : List (List ℚ)) : ℚ) + 1))
        (vsum1 [1, 0] [])) ∧
    vscale ((List.length ([] : List (List ℚ)) : ℚ) + 1)
        (vscale (1 / ((List.length ([] : List (List ℚ)) : ℚ) + 1))
          (vsum1 [1, 0] [])) = vsum1 [1, 0] []) :=
  ⟨⟨by decide, by simp [List.dedup, embOf, idxOf?, exM, exTids]⟩,
    C8_query_is_mean_of_dedup_usable_seeds [5] 5 exM exTids [1, 0] []
      (by decide) (by simp [List.dedup, embOf, idxOf?, exM, exTids])⟩

theorem rankR_total (score : Nat → ℚ) (i j : Nat) :
    rankR score i j ∨ rankR score j i := by
  rcases lt_trichotomy (score i) (score j) with h | h | h
  · exact Or.inr (Or.inl h)
  · rcases le_total i j with hij | hij
    · exact Or.inl (Or.inr ⟨h, hij⟩)
    · exact Or.inr (Or.inr ⟨h.symm, hij⟩)
  · exact Or.inl (Or.inl h)

theorem rankR_trans (score : Nat → ℚ) (i j k : Nat) :
    rankR score i j → rankR score j k → rankR score i k := by
  rintro (h1 | ⟨e1, l1⟩) (h2 | ⟨e2, l2⟩)
  · exact Or.inl (h2.trans h1)
  · exact Or.inl (e2 ▸ h1)
  · exact Or.inl (by rw [e1]; exact h2)
  · exact Or.inr ⟨e1.trans e2, l1.trans l2⟩

/-- C7: calling a generator twice with identical model state and seed
set yields identical output, and the CF ranking breaks score ties by
ascending track index: in the ranked index list, any earlier candidate
either strictly outscores a later one or ties with a strictly smaller
index. -/
theorem C7_determinism_and_ascending_tie_break (item_factors : List (List ℚ))
    (seed : List Nat) (idx_to_tid tid_to_idx : List (Nat × Nat)) (k : Nat)
    (score : Nat → ℚ) (cands : List Nat) (hnd : cands.Nodup) :
    generate_recommendations item_factors seed idx_to_tid tid_to_idx k =
      generate_recommendations item_factors seed idx_to_tid tid_to_idx k ∧
    (rank_indices score cands).Pairwise
      (fun i j => score j < score i ∨ (score i = score j ∧ i < j)) := by
  refine ⟨rfl, ?_⟩
  haveI : IsTotal Nat (rankR score) := ⟨rankR_total score⟩
  haveI : IsTrans Nat (rankR score) := ⟨rankR_trans score⟩
  have hsorted : (rank_indices score cands).Pairwise (rankR score) :=
    List.sorted_insertionSort (rankR score) cands
  have hnd' : (rank_indices score cands).Nodup :=
    ((List.perm_insertionSort (rankR score) cands).nodup_iff).mpr hnd
  refine (hsorted.and hnd').imp ?_
  rintro a b ⟨hr | ⟨he, hle⟩, hne⟩
  · exact Or.inl hr
  · exact Or.inr ⟨he, lt_of_le_of_ne hle hne⟩

/-- Witness for C7: an all-ties scoring of the candidates `[2, 0, 1]`. -/
theorem C7_witness :
    (([2, 0, 1] : List Nat).Nodup) ∧
    (generate_recommendations exFactors [2]
        (build_interaction_samples exTrain).idx_to_tid
        (build_interaction_samples exTrain).tid_to_idx 10 =
      generate_recommendations exFactors [2]
        (build_interaction_samples exTrain).idx_to_tid
        (build_interaction_samples exTrain).tid_to_idx 10 ∧
    (rank_indices (fun _ => 0) [2, 0, 1]).Pairwise
      (fun i j => (fun _ => (0 : ℚ)) j < (fun _ => (0 : ℚ)) i ∨
        ((fun _ => (0 : ℚ)) i = (fun _ => (0 : ℚ)) j ∧ i < j))) :=
  ⟨by decide, C7_determinism_and_ascending_tie_break exFactors [2]
    (build_interaction_samples exTrain).idx_to_tid
    (build_interaction_samples exTrain).tid_to_idx 10 (fun _ => 0) [2, 0, 1]
    (by decide)⟩

theorem dot_nil_right (u : List ℚ) : dot u [] = 0 := by
  cases u <;> rfl

theorem dot_cons_cons (a b : ℚ) (u v : List ℚ) :
    dot (a :: u) (b :: v) = a * b + dot u v := rfl

theorem vscale_cons (c a : ℚ) (v : List ℚ) :
    vscale c (a :: v) = (c * a) :: vscale c v := rfl

theorem dot_vscale (c : ℚ) (q v : List ℚ) :
    dot (vscale c q) v = c * dot q v := by
  induction q generalizing v with
  | nil => simp [dot, vscale]
  | cons a q ih =>
    cases v with
    | nil => simp [dot_nil_right]
    | cons b v =>
      rw [vscale_cons, dot_cons_cons, dot_cons_cons, ih, mul_add, mul_assoc]

theorem dot_comm (u v : List ℚ) : dot u v = dot v u := by
  induction u generalizing v with
  | nil => cases v <;> rfl
  | cons a u ih =>
    cases v with
    | nil => rfl
    | cons b v => rw [dot_cons_cons, dot_cons_cons, ih, mul_comm]

theorem normSq_vscale (c : ℚ) (q : List ℚ) :
    normSq (vscale c q) = c ^ 2 * normSq q := by
  simp only [normSq]
  rw [dot_vscale, dot_comm, dot_vscale, dot_comm]
  ring

theorem cosineSim_vscale (sqrt : ℚ → ℚ) (c : ℚ) (hc : 0 < c)
    (hs : ∀ x, sqrt (c ^ 2 * x) = c * sqrt x) (q v : List ℚ) :
    cosineSim sqrt (vscale c q) v = cosineSim sqrt q v := by
  unfold cosineSim
  rw [normSq_vscale]
  by_cases h : normSq q = 0 ∨ normSq v = 0
  · rw [if_pos ?side, if_pos h]
    rcases h with h | h
    · exact Or.inl (by rw [h, mul_zero])
    · exact Or.inr h
  · rw [if_neg ?negside, if_neg h]
    · rw [dot_vscale, hs (normSq q), mul_assoc]
      exact mul_div_mul_left _ _ hc.ne'
    case negside =>
      rintro (h1 | h2)
      · rcases mul_eq_zero.mp h1 with h1 | h1
        · exact absurd h1 (pow_ne_zero 2 hc.ne')
        · exact h (Or.inl h1)
      · exact h (Or.inr h2)

/-- C6: rescaling the query vector by any positive scalar leaves the
output of the cosine-similarity engine — the per-row scores and the
ranking — unchanged. The abstract square root is assumed compatible
with the scaling (`sqrt (c² x) = c · sqrt x`), the defining property of
a real square root at a positive `c`. -/
theorem C6_ranking_invariant_under_positive_scaling (sqrt : ℚ → ℚ) (c : ℚ)
    (seed : List Nat) (q : List ℚ) (M : List (List ℚ)) (tids : List Nat)
    (hc : 0 < c) (hs : ∀ x, sqrt (c ^ 2 * x) = c * sqrt x) :
    get_similarity sqrt seed (vscale c q) M tids =
      get_similarity sqrt seed q M tids := by
  have hcs : cosineSim sqrt (vscale c q) = cosineSim sqrt q :=
    funext (cosineSim_vscale sqrt c hc hs q)
  unfold get_similarity
  simp only [hcs]

/-- Witness for C6: scaling the spec scenario query `[1,0]` by 2. -/
theorem C6_witness :
    ((0 : ℚ) < 2 ∧ ∀ x : ℚ, (fun _ : ℚ => (0 : ℚ)) (2 ^ 2 * x) =
        2 * (fun _ : ℚ => (0 : ℚ)) x) ∧
    get_similarity (fun _ => 0) [5] (vscale 2 [1, 0]) exM exTids =
      get_similarity (fun _ => 0) [5] [1, 0] exM exTids :=
  ⟨⟨by norm_num, fun x => by norm_num⟩,
    C6_ranking_invariant_under_positive_scaling (fun _ => 0) 2 [5] [1, 0] exM
      exTids (by norm_num) (fun x => by norm_num)⟩

theorem length_rank_indices (score : Nat → ℚ) (cands : List Nat) :
    (rank_indices score cands).length = cands.length :=
  (List.perm_insertionSort _ _).length_eq

theorem length_filterMap_of_total {α β : Type} (f : α → Option β) (l : List α)
    (h : ∀ x ∈ l, (f x).isSome) : (l.filterMap f).length = l.length := by
  induction l with
  | nil => rfl
  | cons a l ih =>
    obtain ⟨b, hb⟩ := Option.isSome_iff_exists.mp (h a (List.mem_cons_self a l))
    rw [List.filterMap_cons_some hb, List.length_cons, List.length_cons,
      ih (fun x hx => h x (List.mem_cons_of_mem a hx))]

theorem nodup_filterMap {α β : Type} (f : α → Option β) (l : List α)
    (hnd : l.Nodup)
    (hinj : ∀ x y b, f x = some b → f y = some b → x = y) :
    (l.filterMap f).Nodup := by
  induction l with
  | nil => exact List.nodup_nil
  | cons a l ih =>
    rw [List.nodup_cons] at hnd
    cases hfa : f a with
    | none =>
      rw [List.filterMap_cons_none hfa]
      exact ih hnd.2
    | some b =>
      rw [List.filterMap_cons_some hfa, List.nodup_cons]
      refine ⟨?_, ih hnd.2⟩
      intro hbmem
      obtain ⟨x, hx, hfx⟩ := List.mem_filterMap.mp hbmem
      exact hnd.1 ((hinj a x b hfa hfx).symm ▸ hx)

/-- Behaviour of the CF generator on index maps produced by the Dataset
Builder: the result list has length `min k (number of candidates)`, no
duplicates, and avoids the filtered seed set. -/
theorem generate_recommendations_spec (train : List (List Track))
    (item_factors : List (List ℚ)) (seed : List Nat) (k : Nat) (q : List ℚ)
    (recs : List Nat)
    (hcf : generate_recommendations item_factors seed
      (build_interaction_samples train).idx_to_tid
      (build_interaction_samples train).tid_to_idx k = some (q, recs)) :
    recs.length = min k (((List.range
        (build_interaction_samples train).tid_to_idx.length).filter
      (fun i => !((seed.filterMap
        (alookup (build_interaction_samples train).tid_to_idx)).contains i))).length) ∧
    recs.Nodup ∧
    ∀ t ∈ recs, t ∉ seed.filter
      (fun s => (alookup (build_interaction_samples train).tid_to_idx s).isSome) := by
  simp only [generate_recommendations] at hcf
  set m := (build_interaction_samples train).tid_to_idx with hm
  set idx := (build_interaction_samples train).idx_to_tid with hidx
  set sI := seed.filterMap (alookup m) with hsI
  cases hrows : sI.filterMap (fun i => item_factors.get? i) with
  | nil =>
    rw [hrows] at hcf
    exact absurd hcf (by simp)
  | cons v vs =>
    rw [hrows] at hcf
    rw [Option.some_inj, Prod.mk.injEq] at hcf
    obtain ⟨hq, hrecs⟩ := hcf
    set score : Nat → ℚ :=
      fun i => dot (vscale (1 / ((vs.length : ℚ) + 1)) (vsum1 v vs))
        (item_factors.getD i []) with hscore
    set cands := (List.range m.length).filter (fun i => !(sI.contains i))
      with hcands
    have hmemc : ∀ i ∈ (rank_indices score cands).take k, i ∈ cands := by
      intro i hi
      exact ((List.perm_insertionSort _ cands).mem_iff).mp (List.mem_of_mem_take hi)
    have htotal : ∀ i ∈ (rank_indices score cands).take k, (alookup idx i).isSome := by
      intro i hi
      have hlt : i < m.length := List.mem_range.mp (List.mem_filter.mp (hmemc i hi)).1
      have : i ∈ akeys idx := by
        rw [hidx, akeys_idx_to_tid]
        exact List.mem_range.mpr hlt
      exact (alookup_isSome_iff _ _).mpr this
    refine ⟨?_, ?_, ?_⟩
    · rw [← hrecs, length_filterMap_of_total _ _ htotal, List.length_take,
        length_rank_indices]
    · have hnodup_c : cands.Nodup := List.Nodup.filter _ (List.nodup_range _)
      have hnodup_t : ((rank_indices score cands).take k).Nodup :=
        List.Nodup.sublist (List.take_sublist _ _)
          ((List.perm_insertionSort _ cands).nodup_iff.mpr hnodup_c)
      have hinj : ∀ x y b, alookup idx x = some b → alookup idx y = some b →
          x = y := by
        intro x y b hx hy
        have hx' := build_roundtrip_rev hx
        have hy' := build_roundtrip_rev hy
        exact Option.some.inj (hx'.symm.trans hy')
      rw [← hrecs]
      exact nodup_filterMap _ _ hnodup_t hinj
    · rw [← hrecs]
      intro t ht hmem
      obtain ⟨i, hi, hit⟩ := List.mem_filterMap.mp ht
      have hni : i ∉ sI := by
        have := (List.mem_filter.mp (hmemc i hi)).2
        simpa using this
      obtain ⟨hts, _⟩ := List.mem_filter.mp hmem
      exact hni (List.mem_filterMap.mpr ⟨t, hts, build_roundtrip_rev hit⟩)

/-- Behaviour of the audio similarity ranking truncated to K: length
`min k (number of candidate rows)`, no duplicates (for a duplicate-free
identifier sequence), and no seed identifiers. -/
theorem get_similarity_spec (sqrt : ℚ → ℚ) (seed : List Nat) (q : List ℚ)
    (M : List (List ℚ)) (tids : List Nat) (k : Nat) (htids : tids.Nodup) :
    ((get_similarity sqrt seed q M tids).2.take k).length =
      min k (((List.range tids.length).filter
        (fun i => !(seed.contains (tids.getD i 0)))).length) ∧
    ((get_similarity sqrt seed q M tids).2.take k).Nodup ∧
    ∀ t ∈ (get_similarity sqrt seed q M tids).2.take k, t ∉ seed := by
  have h2 : (get_similarity sqrt seed q M tids).2 =
      (rank_indices (fun i => cosineSim sqrt q (M.getD i []))
        ((List.range tids.length).filter
          (fun i => !(seed.contains (tids.getD i 0))))).map
        (fun i => tids.getD i 0) := rfl
  set score : Nat → ℚ := fun i => cosineSim sqrt q (M.getD i []) with hscore
  set cands := (List.range tids.length).filter
    (fun i => !(seed.contains (tids.getD i 0))) with hcands
  have hmemc : ∀ i ∈ rank_indices score cands, i ∈ cands := fun i hi =>
    ((List.perm_insertionSort _ cands).mem_iff).mp hi
  have hlt : ∀ i ∈ rank_indices score cands, i < tids.length := fun i hi =>
    List.mem_range.mp (List.mem_filter.mp (hmemc i hi)).1
  refine ⟨?_, ?_, ?_⟩
  · rw [h2, List.length_take, List.length_map, length_rank_indices]
  · rw [h2]
    refine List.Nodup.sublist (List.take_sublist _ _) ?_
    refine List.Nodup.map_on ?_
      ((List.perm_insertionSort _ cands).nodup_iff.mpr
        (List.Nodup.filter _ (List.nodup_range _)))
    intro x hx y hy hxy
    have hxl := hlt x hx
    have hyl := hlt y hy
    rw [List.getD_eq_getElem _ _ hxl, List.getD_eq_getElem _ _ hyl] at hxy
    have : (⟨x, hxl⟩ : Fin tids.length) = ⟨y, hyl⟩ :=
      (List.Nodup.get_inj_iff htids).mp (by simpa using hxy)
    exact congrArg Fin.val this
  · rw [h2]
    intro t ht hseed
    obtain ⟨i, hi, hit⟩ := List.mem_map.mp (List.mem_of_mem_take ht)
    have := (List.mem_filter.mp (hmemc i hi)).2
    rw [hit] at this
    simp at this
    exact this hseed

/-- C2: for every seed set and result count K, the CF generator (when it
returns) and the audio generator truncated to K both return exactly
`min K (size of the candidate pool)` track identifiers — at most K, and
fewer than K without padding or failing when the pool is small — all
pairwise distinct and none present in the (filtered) seed set. -/
theorem C2_generators_return_at_most_k_distinct_non_seed
    (train : List (List Track)) (item_factors : List (List ℚ))
    (seed : List Nat) (k : Nat) (q : List ℚ) (recs : List Nat)
    (sqrt : ℚ → ℚ) (qa : List ℚ) (M : List (List ℚ)) (tids : List Nat)
    (hcf : generate_recommendations item_factors seed
      (build_interaction_samples train).idx_to_tid
      (build_interaction_samples train).tid_to_idx k = some (q, recs))
    (htids : tids.Nodup) :
    (recs.length ≤ k ∧
      recs.length = min k (((List.range
          (build_interaction_samples train).tid_to_idx.length).filter
        (fun i => !((seed.filterMap
          (alookup (build_interaction_samples train).tid_to_idx)).contains
            i))).length) ∧
      recs.Nodup ∧
      ∀ t ∈ recs, t ∉ seed.filter
        (fun s => (alookup (build_interaction_samples train).tid_to_idx
          s).isSome)) ∧
    (((get_similarity sqrt seed qa M tids).2.take k).length ≤ k ∧
      ((get_similarity sqrt seed qa M tids).2.take k).length =
        min k (((List.range tids.length).filter
          (fun i => !(seed.contains (tids.getD i 0)))).length) ∧
      ((get_similarity sqrt seed qa M tids).2.take k).Nodup ∧
      ∀ t ∈ (get_similarity sqrt seed qa M tids).2.take k, t ∉ seed) := by
  obtain ⟨hl, hnd, hex⟩ :=
    generate_recommendations_spec train item_factors seed k q recs hcf
  obtain ⟨hl2, hnd2, hex2⟩ := get_similarity_spec sqrt seed qa M tids k htids
  exact ⟨⟨hl ▸ Nat.min_le_left _ _, hl, hnd, hex⟩,
    ⟨hl2 ▸ Nat.min_le_left _ _, hl2, hnd2, hex2⟩⟩

/-- Witness for C2: the spec scenario, CF seed `[2]` (index 1), audio
query `[1,0]` with seed `[5]`, K = 10. -/
theorem C2_witness :
    (generate_recommendations exFactors [2]
        (build_interaction_samples exTrain).idx_to_tid
        (build_interaction_samples exTrain).tid_to_idx 10 =
          some ([0, 1], [3, 1]) ∧
      exTids.Nodup) ∧
    ((([3, 1] : List Nat).length ≤ 10 ∧
      ([3, 1] : List Nat).length = min 10 (((List.range
          (build_interaction_samples exTrain).tid_to_idx.length).filter
        (fun i => !((([2] : List Nat).filterMap
          (alookup (build_interaction_samples exTrain).tid_to_idx)).contains
            i))).length) ∧
      ([3, 1] : List Nat).Nodup ∧
      ∀ t ∈ ([3, 1] : List Nat), t ∉ ([2] : List Nat).filter
        (fun s => (alookup (build_interaction_samples exTrain).tid_to_idx
          s).isSome)) ∧
    (((get_similarity (fun _ => 1) [2] [1, 0] exM exTids).2.take 10).length ≤ 10 ∧
      ((get_similarity (fun _ => 1) [2] [1, 0] exM exTids).2.take 10).length =
        min 10 (((List.range exTids.length).filter
          (fun i => !(([2] : List Nat).contains (exTids.getD i 0)))).length) ∧
      ((get_similarity (fun _ => 1) [2] [1, 0] exM exTids).2.take 10).Nodup ∧
      ∀ t ∈ (get_similarity (fun _ => 1) [2] [1, 0] exM exTids).2.take 10,
        t ∉ ([2] : List Nat))) :=
  ⟨⟨by norm_num [generate_recommendations, build_interaction_samples, List.enum,
      List.enumFrom, addPlaylist, addTrack, alookup, exTrain, exA, exB, exC,
      exFactors, rank_indices, List.insertionSort, List.orderedInsert, rankR,
      vscale, vsum1, vadd, dot, List.filterMap, List.range, List.range.loop,
      List.filter], by decide⟩,
    C2_generators_return_at_most_k_distinct_non_seed exTrain exFactors [2] 10
      [0, 1] [3, 1] (fun _ => 1) [1, 0] exM exTids
      (by norm_num [generate_recommendations, build_interaction_samples,
        List.enum, List.enumFrom, addPlaylist, addTrack, alookup, exTrain, exA,
        exB, exC, exFactors, rank_indices, List.insertionSort,
        List.orderedInsert, rankR, vscale, vsum1, vadd, dot, List.filterMap,
        List.range, List.range.loop, List.filter])
      (by decide)⟩

/-- C9 (refutation of the claim on the code as written): the CF tab
handler loads a model whose weights were never trained or loaded
(`load_model` only constructs `WRMF` — its body holds the comment
"In a real app, load model weights here" — so `trained = false`), and
scoring proceeds anyway: at the spec scenario with playlist `[B]` the
handler returns a recommendation list computed from the random initial
factors instead of failing with a `ModelNotReady` condition. No
`ModelNotReady` check exists anywhere on this path. -/
theorem C9_untrained_model_is_scored_silently :
    (load_model exFactors exTrain.length
      (build_interaction_samples exTrain).tid_to_idx.length 32).trained = false ∧
    cfTab exFactors exTrain [exB] 10 = some [3, 1] :=
  ⟨rfl, by norm_num [cfTab, load_model, app_playlist_tids, generate_recommendations,
    build_interaction_samples, List.enum, List.enumFrom, addPlaylist, addTrack,
    alookup, exTrain, exA, exB, exC, exFactors, rank_indices, List.insertionSort,
    List.orderedInsert, rankR, vscale, vsum1, vadd, dot, List.filterMap,
    List.range, List.range.loop, List.filter]⟩

end MusicRec
